import Mathlib

/-!
Verification of the go-har HAR (HTTP Archive 1.2) codec and replay engine.

Go strings are byte sequences; we model them as `List Nat` with each element
a byte value (< 256 where it matters).  Field names and encoding markers are
modelled as Lean `String`s, text payloads as byte lists.
-/

/-- Byte strings: the contents of a Go `string` or `[]byte`. -/
abbrev GoStr := List Nat

/-- ASCII view of a Lean string literal, for concrete test inputs. -/
def ascii (s : String) : GoStr := s.data.map Char.toNat

/-! ## UTF-8 validity (Go `unicode/utf8.ValidString`)

Accepts exactly the well-formed UTF-8 byte sequences: no overlong forms,
no surrogates, nothing above U+10FFFF. -/

/-- Is `b` a UTF-8 continuation byte (`0x80..0xBF`)? -/
def isCont (b : Nat) : Bool := 0x80 ≤ b && b ≤ 0xBF

/-- Go `utf8.ValidString` on a byte list. -/
def utf8Valid : GoStr → Bool
  | [] => true
  | b :: rest =>
    if b ≤ 0x7F then utf8Valid rest
    else if 0xC2 ≤ b && b ≤ 0xDF then
      match rest with
      | c1 :: r => isCont c1 && utf8Valid r
      | [] => false
    else if b = 0xE0 then
      match rest with
      | c1 :: c2 :: r => (0xA0 ≤ c1 && c1 ≤ 0xBF) && isCont c2 && utf8Valid r
      | _ => false
    else if (0xE1 ≤ b && b ≤ 0xEC) || b = 0xEE || b = 0xEF then
      match rest with
      | c1 :: c2 :: r => isCont c1 && isCont c2 && utf8Valid r
      | _ => false
    else if b = 0xED then
      match rest with
      | c1 :: c2 :: r => (0x80 ≤ c1 && c1 ≤ 0x9F) && isCont c2 && utf8Valid r
      | _ => false
    else if b = 0xF0 then
      match rest with
      | c1 :: c2 :: c3 :: r =>
        (0x90 ≤ c1 && c1 ≤ 0xBF) && isCont c2 && isCont c3 && utf8Valid r
      | _ => false
    else if 0xF1 ≤ b && b ≤ 0xF3 then
      match rest with
      | c1 :: c2 :: c3 :: r => isCont c1 && isCont c2 && isCont c3 && utf8Valid r
      | _ => false
    else if b = 0xF4 then
      match rest with
      | c1 :: c2 :: c3 :: r =>
        (0x80 ≤ c1 && c1 ≤ 0x8F) && isCont c2 && isCont c3 && utf8Valid r
      | _ => false
    else false

/-! ## Base64 (Go `encoding/base64.StdEncoding`)

Standard alphabet with `=` padding.  `base64Encode` is
`StdEncoding.EncodeToString`; `base64Decode` is `StdEncoding.DecodeString`
restricted to inputs without whitespace (the repository never feeds it any). -/

/-- Byte value of the standard base64 alphabet at index `i < 64`. -/
def alphaChar (i : Nat) : Nat :=
  if i < 26 then 65 + i
  else if i < 52 then 97 + (i - 26)
  else if i < 62 then 48 + (i - 52)
  else if i = 62 then 43
  else 47

/-- Inverse of `alphaChar`: index of byte `c` in the standard alphabet. -/
def decIdx (c : Nat) : Option Nat :=
  if 65 ≤ c && c ≤ 90 then some (c - 65)
  else if 97 ≤ c && c ≤ 122 then some (26 + (c - 97))
  else if 48 ≤ c && c ≤ 57 then some (52 + (c - 48))
  else if c = 43 then some 62
  else if c = 47 then some 63
  else none

/-- The padding byte, ASCII `=`. -/
def padByte : Nat := 61

/-- Go `base64.StdEncoding.EncodeToString`. -/
def base64Encode : GoStr → GoStr
  | [] => []
  | [b1] =>
    [alphaChar (b1 / 4), alphaChar (b1 % 4 * 16), padByte, padByte]
  | [b1, b2] =>
    [alphaChar (b1 / 4), alphaChar (b1 % 4 * 16 + b2 / 16),
     alphaChar (b2 % 16 * 4), padByte]
  | b1 :: b2 :: b3 :: rest =>
    alphaChar (b1 / 4) :: alphaChar (b1 % 4 * 16 + b2 / 16) ::
    alphaChar (b2 % 16 * 4 + b3 / 64) :: alphaChar (b3 % 64) ::
    base64Encode rest

/-- Go `base64.StdEncoding.DecodeString`: consumes full 4-byte quantums; the
final quantum may carry one or two padding bytes; anything else is a
`CorruptInputError`. -/
def base64Decode : GoStr → Except String GoStr
  | [] => .ok []
  | c1 :: c2 :: c3 :: c4 :: rest =>
    match decIdx c1, decIdx c2 with
    | some i1, some i2 =>
      if c3 = padByte then
        if c4 = padByte then
          if rest = [] then .ok [i1 * 4 + i2 / 16]
          else .error "illegal base64 data"
        else .error "illegal base64 data"
      else
        match decIdx c3 with
        | some i3 =>
          if c4 = padByte then
            if rest = [] then .ok [i1 * 4 + i2 / 16, i2 % 16 * 16 + i3 / 4]
            else .error "illegal base64 data"
          else
            match decIdx c4 with
            | some i4 =>
              match base64Decode rest with
              | .ok tail =>
                .ok ((i1 * 4 + i2 / 16) :: (i2 % 16 * 16 + i3 / 4) ::
                     (i3 % 4 * 64 + i4) :: tail)
              | .error e => .error e
            | none => .error "illegal base64 data"
        | none => .error "illegal base64 data"
    | _, _ => .error "illegal base64 data"
  | _ => .error "illegal base64 data"

theorem decIdx_alphaChar {i : Nat} (h : i < 64) : decIdx (alphaChar i) = some i := by
  interval_cases i <;> rfl

/-- Bytes of a Go string are below 256. -/
def allBytes (bs : GoStr) : Prop := ∀ b ∈ bs, b < 256

instance : DecidablePred allBytes := fun bs => List.decidableBAll _ bs

theorem alphaChar_ne_pad {i : Nat} (h : i < 64) : alphaChar i ≠ padByte := by
  intro hEq
  have h' := decIdx_alphaChar h
  have hnone : decIdx padByte = none := by decide
  rw [hEq, hnone] at h'
  exact Option.noConfusion h'

theorem mulAddDiv {k : Nat} (hk : 0 < k) (x y : Nat) (hy : y < k) : (x * k + y) / k = x := by
  rw [Nat.mul_comm, Nat.mul_add_div hk, Nat.div_eq_of_lt hy, Nat.add_zero]

theorem mulAddMod (k x y : Nat) (hy : y < k) : (x * k + y) % k = y := by
  rw [Nat.mul_comm, Nat.mul_add_mod, Nat.mod_eq_of_lt hy]

theorem base64_decode_encode (bs : GoStr) (h : allBytes bs) :
    base64Decode (base64Encode bs) = .ok bs := by
  induction bs using base64Encode.induct with
  | case1 => simp [base64Encode, base64Decode]
  | case2 b1 =>
    have hb1 : b1 < 256 := h b1 (by simp)
    have h1 : b1 / 4 < 64 := by omega
    have h2 : b1 % 4 * 16 < 64 := by omega
    have e2 : b1 % 4 * 16 / 16 = b1 % 4 := by
      have hd := mulAddDiv (k := 16) (by norm_num) (b1 % 4) 0 (by norm_num)
      rw [Nat.add_zero] at hd
      exact hd
    simp only [base64Encode, base64Decode, decIdx_alphaChar h1, decIdx_alphaChar h2,
      eq_self_iff_true, if_true, Except.ok.injEq, List.cons.injEq, and_true, e2]
    omega
  | case3 b1 b2 =>
    have hb1 : b1 < 256 := h b1 (by simp)
    have hb2 : b2 < 256 := h b2 (by simp)
    have h1 : b1 / 4 < 64 := by omega
    have h2 : b1 % 4 * 16 + b2 / 16 < 64 := by omega
    have h3 : b2 % 16 * 4 < 64 := by omega
    have e3 : b2 % 16 * 4 / 4 = b2 % 16 := by
      have hd := mulAddDiv (k := 4) (by norm_num) (b2 % 16) 0 (by norm_num)
      rw [Nat.add_zero] at hd
      exact hd
    simp only [base64Encode, base64Decode, decIdx_alphaChar h1, decIdx_alphaChar h2,
      decIdx_alphaChar h3, if_neg (alphaChar_ne_pad h3), eq_self_iff_true, if_true,
      Except.ok.injEq, List.cons.injEq, and_true,
      mulAddDiv (k := 16) (by norm_num : (0:Nat) < 16) (b1 % 4) (b2 / 16) (by omega),
      mulAddMod 16 (b1 % 4) (b2 / 16) (by omega), e3]
    omega
  | case4 b1 b2 b3 rest ih =>
    have hb1 : b1 < 256 := h b1 (by simp)
    have hb2 : b2 < 256 := h b2 (by simp)
    have hb3 : b3 < 256 := h b3 (by simp)
    have h1 : b1 / 4 < 64 := by omega
    have h2 : b1 % 4 * 16 + b2 / 16 < 64 := by omega
    have h3 : b2 % 16 * 4 + b3 / 64 < 64 := by omega
    have h4 : b3 % 64 < 64 := by omega
    have ihr := ih (fun b hb => h b (by simp [hb]))
    simp only [base64Encode, base64Decode, decIdx_alphaChar h1, decIdx_alphaChar h2,
      decIdx_alphaChar h3, decIdx_alphaChar h4, if_neg (alphaChar_ne_pad h3),
      if_neg (alphaChar_ne_pad h4), ihr, Except.ok.injEq, List.cons.injEq, and_true,
      mulAddDiv (k := 16) (by norm_num : (0:Nat) < 16) (b1 % 4) (b2 / 16) (by omega),
      mulAddMod 16 (b1 % 4) (b2 / 16) (by omega),
      mulAddDiv (k := 4) (by norm_num : (0:Nat) < 4) (b2 % 16) (b3 / 64) (by omega),
      mulAddMod 4 (b2 % 16) (b3 / 64) (by omega)]
    omega

/-! ## HAR content model (src/unnamed/part_001)

`PostData` and `Content` carry the custom JSON codecs of the repository.
Text payloads are byte lists; the `encoding` marker and MIME type are kept
as byte lists too, except `Content.Encoding`, which the source compares
against the literals `""`/`"base64"`, modelled as a Lean `String`. -/

structure PostParam where
  name : GoStr
  value : GoStr
  fileName : GoStr
  contentType : GoStr
  comment : GoStr
deriving Repr, DecidableEq

structure PostData where
  mimeType : GoStr
  params : List PostParam
  text : GoStr
  comment : GoStr
deriving Repr, DecidableEq

/-- The JSON object produced or consumed for a `PostData`: the fields of
`pdBinary` when the `encoding` marker is present (`some`), the plain
`PostData` fields when it is absent (`none`).  The `text` member holds the
JSON string value: raw text on the plain path, base64 characters on the
binary path (Go `json` marshals `[]byte` as a base64 string). -/
structure PDWire where
  mimeType : GoStr
  params : List PostParam
  text : GoStr
  encoding : Option String
  comment : GoStr
deriving Repr, DecidableEq

/-- Go `PostData.MarshalJSON`: valid UTF-8 text marshals through the plain
`noMethod` struct; anything else marshals as `pdBinary` with base64 text and
an explicit base64 marker (`pdBinary` has no comment field, so the comment
is dropped on that path). -/
def PostData.marshalJSON (p : PostData) : PDWire :=
  if utf8Valid p.text then
    { mimeType := p.mimeType, params := p.params, text := p.text,
      encoding := none, comment := p.comment }
  else
    { mimeType := p.mimeType, params := p.params, text := base64Encode p.text,
      encoding := some "base64", comment := [] }

/-- Go `PostData.UnmarshalJSON`: if the `encoding` field is not `"base64"`,
the plain fields are taken verbatim; otherwise the object is read as
`pdBinary`, whose `[]byte` text is base64-decoded. -/
def PostData.unmarshalJSON (w : PDWire) : Except String PostData :=
  if w.encoding ≠ some "base64" then
    .ok { mimeType := w.mimeType, params := w.params, text := w.text,
          comment := w.comment }
  else
    (base64Decode w.text).map fun bytes =>
      { mimeType := w.mimeType, params := w.params, text := bytes, comment := [] }

structure Content where
  size : Int
  compression : Int
  mimeType : GoStr
  text : GoStr
  encoding : String
  comment : GoStr
deriving Repr, DecidableEq

/-- The `contentJSON` struct of the source: the JSON object written for a
`Content`.  Its `text` member holds the JSON string value. -/
structure ContentJSON where
  size : Int
  mimeType : GoStr
  text : GoStr
  encoding : String
deriving Repr, DecidableEq

/-- Go `Content.MarshalJSON`: switch on `c.Encoding` — `"base64"` emits the
bytes base64-encoded, `""` emits them verbatim, anything else is an error. -/
def Content.marshalJSON (c : Content) : Except String ContentJSON :=
  if c.encoding = "base64" then
    .ok { size := c.size, mimeType := c.mimeType,
          text := base64Encode c.text, encoding := c.encoding }
  else if c.encoding = "" then
    .ok { size := c.size, mimeType := c.mimeType,
          text := c.text, encoding := c.encoding }
  else
    .error ("unsupported encoding for Content.Text: " ++ c.encoding)

/-- Decoding a `Content` from JSON.  The source defines no
`Content.UnmarshalJSON`, so Go `encoding/json` applies its default rule for
the `Text []byte` field: the JSON string is base64-decoded, whatever the
`encoding` field says.  `Compression`/`Comment` come from fields absent in
`contentJSON`, hence zero values here. -/
def Content.unmarshalDefault (w : ContentJSON) : Except String Content :=
  (base64Decode w.text).map fun bytes =>
    { size := w.size, compression := 0, mimeType := w.mimeType,
      text := bytes, encoding := w.encoding, comment := [] }

/-- The `Content` record built by `NewResponse` (src/unnamed/part_004):
`Encoding` is the constant `"base64"`, the MIME type is the Content-Type
header, and the body is captured only when `withBody` is set. -/
def newResponseContent (contentTypeHeader : GoStr) (withBody : Bool)
    (body : GoStr) : Content :=
  let base : Content :=
    { size := 0, compression := 0, mimeType := contentTypeHeader,
      text := [], encoding := "base64", comment := [] }
  if withBody then { base with text := body, size := (body.length : Int) }
  else base

instance {ε α : Type} [DecidableEq ε] [DecidableEq α] : DecidableEq (Except ε α) := fun x y =>
  match x, y with
  | .ok a, .ok b =>
    if h : a = b then .isTrue (by rw [h]) else .isFalse (by intro he; cases he; exact h rfl)
  | .ok _, .error _ => .isFalse (by intro he; cases he)
  | .error _, .ok _ => .isFalse (by intro he; cases he)
  | .error a, .error b =>
    if h : a = b then .isTrue (by rw [h]) else .isFalse (by intro he; cases he; exact h rfl)

/-! ## Claim C1: JSON round-trip of a decoded archive -/

/-- A content object as it appears in HAR JSON: plain text `"\x00"` (the JSON
string `"AA=="` decoded by the default `[]byte` rule), no encoding marker. -/
def c1Wire : ContentJSON :=
  { size := 1, mimeType := ascii "a", text := ascii "AA==", encoding := "" }

/-- The `Content` value the first decode produces from `c1Wire`. -/
def c1Decoded : Content :=
  { size := 1, compression := 0, mimeType := ascii "a", text := [0],
    encoding := "", comment := [] }

/-- The JSON object the re-encode produces from `c1Decoded`. -/
def c1Rewire : ContentJSON :=
  { size := 1, mimeType := ascii "a", text := [0], encoding := "" }

/-- C1: decoding a HAR content from JSON, re-encoding it, and decoding the
result again does NOT reproduce the archive: the first decode base64-decodes
the text (default Go rule for `[]byte`, since `Content` has no custom
unmarshaller), the re-encode emits the raw bytes verbatim (empty encoding),
and the second decode then fails to base64-decode those bytes.  This refutes
the round-trip property at a concrete input. -/
theorem C1_content_roundtrip_fails :
    Content.unmarshalDefault c1Wire = .ok c1Decoded ∧
    Content.marshalJSON c1Decoded = .ok c1Rewire ∧
    Content.unmarshalDefault c1Rewire = .error "illegal base64 data" :=
  ⟨by decide, by decide, by decide⟩

/-! ## Claim C2: automatic choice of body encoding -/

/-- A response content whose bytes are the valid UTF-8 text `hi` but whose
`Encoding` field is `"base64"` (exactly what `NewResponse` always builds). -/
def c2Content : Content :=
  { size := 2, compression := 0, mimeType := [], text := ascii "hi",
    encoding := "base64", comment := [] }

/-- C2 counterexample: a `Content` whose logical bytes are valid UTF-8 is
nevertheless serialized base64-encoded with the `"base64"` marker, because
`Content.MarshalJSON` follows the stored `Encoding` field rather than
examining the bytes — refuting "valid UTF-8 is never spuriously
base64-encoded". -/
theorem C2_counterexample :
    utf8Valid c2Content.text = true ∧
    Content.marshalJSON c2Content =
      .ok { size := 2, mimeType := [], text := ascii "aGk=", encoding := "base64" } :=
  ⟨by decide, by decide⟩

/-- C2 (amended): `PostData` serialization chooses the encoding from the
bytes — valid UTF-8 is emitted plainly with no marker, anything else is
emitted base64-encoded with the `"base64"` marker and round-trips back to
the original bytes.  `Content` serialization instead follows the stored
`Encoding` field: `NewResponse` marks every captured body `"base64"`, so
even valid UTF-8 response bodies are base64-encoded (and they round-trip),
while a `Content` with empty encoding is emitted verbatim whatever its
bytes. -/
theorem C2_encoding_choice :
    (∀ p : PostData, utf8Valid p.text = true →
      PostData.marshalJSON p =
        { mimeType := p.mimeType, params := p.params, text := p.text,
          encoding := none, comment := p.comment }) ∧
    (∀ p : PostData, utf8Valid p.text = false → allBytes p.text →
      (PostData.marshalJSON p).encoding = some "base64" ∧
      PostData.unmarshalJSON (PostData.marshalJSON p) =
        .ok { mimeType := p.mimeType, params := p.params, text := p.text,
              comment := [] }) ∧
    (∀ ct wb body, (newResponseContent ct wb body).encoding = "base64") ∧
    (∀ c : Content, c.encoding = "base64" → allBytes c.text →
      Content.marshalJSON c =
        .ok { size := c.size, mimeType := c.mimeType,
              text := base64Encode c.text, encoding := "base64" } ∧
      Content.unmarshalDefault
          { size := c.size, mimeType := c.mimeType,
            text := base64Encode c.text, encoding := "base64" } =
        .ok { size := c.size, compression := 0, mimeType := c.mimeType,
              text := c.text, encoding := "base64", comment := [] }) ∧
    (∀ c : Content, c.encoding = "" →
      Content.marshalJSON c =
        .ok { size := c.size, mimeType := c.mimeType, text := c.text,
              encoding := "" }) := by
  refine ⟨?_, ?_, ?_, ?_, ?_⟩
  · intro p hv
    simp [PostData.marshalJSON, hv]
  · intro p hv hb
    constructor
    · simp [PostData.marshalJSON, hv]
    · simp [PostData.marshalJSON, PostData.unmarshalJSON, hv, base64_decode_encode _ hb,
        Except.map]
  · intro ct wb body
    cases wb <;> simp [newResponseContent]
  · intro c hc hb
    refine ⟨by simp [Content.marshalJSON, hc], ?_⟩
    simp [Content.unmarshalDefault, base64_decode_encode _ hb, Except.map]
  · intro c hc
    simp [Content.marshalJSON, hc]

/-- C2 witness: the amended statement applied at concrete inputs. -/
theorem C2_encoding_choice_witness :
    PostData.marshalJSON
        { mimeType := [], params := [], text := ascii "ok", comment := [] } =
      { mimeType := [], params := [], text := ascii "ok", encoding := none,
        comment := [] } ∧
    PostData.unmarshalJSON (PostData.marshalJSON
        { mimeType := [], params := [], text := [0xFF], comment := [] }) =
      .ok { mimeType := [], params := [], text := [0xFF], comment := [] } ∧
    (newResponseContent (ascii "text/plain") true (ascii "hi")).encoding = "base64" ∧
    Content.marshalJSON c2Content =
      .ok { size := 2, mimeType := [], text := base64Encode (ascii "hi"),
            encoding := "base64" } ∧
    Content.marshalJSON
        { size := 0, compression := 0, mimeType := [], text := [0xFF],
          encoding := "", comment := [] } =
      .ok { size := 0, mimeType := [], text := [0xFF], encoding := "" } := by
  obtain ⟨h1, h2, h3, h4, h5⟩ := C2_encoding_choice
  exact ⟨h1 _ (by decide),
    (h2 { mimeType := [], params := [], text := [0xFF], comment := [] }
      (by decide) (by decide)).2,
    h3 _ _ _,
    (h4 c2Content (by decide) (by decide)).1,
    h5 _ (by decide)⟩

/-! ## Claim C7: validation of the Content encoding field -/

/-- C7: `Content.MarshalJSON` rejects any encoding other than `""` or
`"base64"` with a serialization error; with `"base64"` the bytes are emitted
base64-encoded, and with `""` they are emitted verbatim. -/
theorem C7_content_marshal_encoding (c : Content) :
    (c.encoding ≠ "" → c.encoding ≠ "base64" →
      Content.marshalJSON c =
        .error ("unsupported encoding for Content.Text: " ++ c.encoding)) ∧
    (c.encoding = "base64" →
      Content.marshalJSON c =
        .ok { size := c.size, mimeType := c.mimeType,
              text := base64Encode c.text, encoding := c.encoding }) ∧
    (c.encoding = "" →
      Content.marshalJSON c =
        .ok { size := c.size, mimeType := c.mimeType, text := c.text,
              encoding := c.encoding }) := by
  refine ⟨fun h1 h2 => ?_, fun h => ?_, fun h => ?_⟩
  · simp [Content.marshalJSON, h1, h2]
  · simp [Content.marshalJSON, h]
  · simp [Content.marshalJSON, h]

/-- C7 witness: the three branches at concrete contents. -/
theorem C7_content_marshal_encoding_witness :
    Content.marshalJSON
        { size := 0, compression := 0, mimeType := [], text := [],
          encoding := "gzip", comment := [] } =
      .error ("unsupported encoding for Content.Text: " ++ "gzip") ∧
    Content.marshalJSON
        { size := 1, compression := 0, mimeType := [], text := [0],
          encoding := "base64", comment := [] } =
      .ok { size := 1, mimeType := [], text := base64Encode [0],
            encoding := "base64" } ∧
    Content.marshalJSON
        { size := 1, compression := 0, mimeType := [], text := [0],
          encoding := "", comment := [] } =
      .ok { size := 1, mimeType := [], text := [0], encoding := "" } :=
  ⟨(C7_content_marshal_encoding _).1 (by decide) (by decide),
   (C7_content_marshal_encoding _).2.1 rfl,
   (C7_content_marshal_encoding _).2.2 rfl⟩

/-! ## Archive store (src/unnamed/part_004, `Handler`)

The store keeps the authoritative entry list `har.Log.Entries` and the
correlation index `entries map[string]*Entry`, modelled as an association
list.  Only the entry fields the claims touch are modelled; `Response`,
`Cache` and `Timings` play no role in any claim about the store. -/

structure RequestRec where
  method : String
  url : String
deriving Repr, DecidableEq

structure EntryRec where
  pageRef : String
  startedDateTime : String
  time : Int
  request : RequestRec
deriving Repr, DecidableEq

structure StoreSt where
  entriesIdx : List (String × EntryRec)
  logEntries : List EntryRec
deriving Repr, DecidableEq

/-- Go `Handler.AddRequest`: build the entry (placeholder response, time -1,
`now` standing for `time.Now().UTC().Format(time.RFC3339Nano)`), then under
the lock reject a correlation id already present in the index, otherwise
insert into the index and append to the entry list.  The returned `Option
String` is the error; on error the receiver is left untouched. -/
def Handler.addRequest (st : StoreSt) (id : String) (req : RequestRec)
    (now : String) : StoreSt × Option String :=
  let entry : EntryRec :=
    { pageRef := id, startedDateTime := now, time := -1, request := req }
  match st.entriesIdx.lookup id with
  | some _ => (st, some ("har: duplicate request id: " ++ id))
  | none =>
    ({ entriesIdx := (id, entry) :: st.entriesIdx,
       logEntries := st.logEntries ++ [entry] }, none)

/-- Number of entries in the authoritative list carrying a given id. -/
def StoreSt.countId (st : StoreSt) (id : String) : Nat :=
  (st.logEntries.filter fun e => e.pageRef = id).length

/-- C6: with `id` free, the first `AddRequest` succeeds and leaves exactly one
entry with that id in both the list and the index; a second `AddRequest` with
the same id returns the duplicate-id error and returns the store unchanged.
Duplicate rejection also holds from any store whose index already binds the
id. -/
theorem C6_duplicate_id (st : StoreSt) (id : String) (r r' : RequestRec)
    (now now' : String)
    (hfree : st.entriesIdx.lookup id = none)
    (hcount : st.countId id = 0) :
    (Handler.addRequest st id r now).2 = none ∧
    StoreSt.countId (Handler.addRequest st id r now).1 id = 1 ∧
    ((Handler.addRequest st id r now).1.entriesIdx.lookup id).isSome = true ∧
    Handler.addRequest (Handler.addRequest st id r now).1 id r' now' =
      ((Handler.addRequest st id r now).1,
       some ("har: duplicate request id: " ++ id)) ∧
    (∀ s : StoreSt, (s.entriesIdx.lookup id).isSome = true →
      Handler.addRequest s id r' now' =
        (s, some ("har: duplicate request id: " ++ id))) := by
  have hgen : ∀ s : StoreSt, (s.entriesIdx.lookup id).isSome = true →
      Handler.addRequest s id r' now' =
        (s, some ("har: duplicate request id: " ++ id)) := by
    intro s hs
    unfold Handler.addRequest
    cases hl : s.entriesIdx.lookup id with
    | none => rw [hl] at hs; simp at hs
    | some e => simp
  refine ⟨?_, ?_, ?_, ?_, hgen⟩
  · simp [Handler.addRequest, hfree]
  · simp only [Handler.addRequest, hfree, StoreSt.countId, List.filter_append]
    unfold StoreSt.countId at hcount
    simp [hcount]
  · simp [Handler.addRequest, hfree, List.lookup]
  · apply hgen
    simp [Handler.addRequest, hfree, List.lookup]

/-- C6 witness: the theorem at a concrete empty store. -/
theorem C6_duplicate_id_witness :
    (Handler.addRequest ⟨[], []⟩ "1" ⟨"GET", "https://a.test/x"⟩ "t0").2 = none ∧
    StoreSt.countId
      (Handler.addRequest ⟨[], []⟩ "1" ⟨"GET", "https://a.test/x"⟩ "t0").1 "1" = 1 ∧
    (((Handler.addRequest ⟨[], []⟩ "1" ⟨"GET", "https://a.test/x"⟩ "t0").1.entriesIdx.lookup
        "1").isSome = true) ∧
    Handler.addRequest
        (Handler.addRequest ⟨[], []⟩ "1" ⟨"GET", "https://a.test/x"⟩ "t0").1
        "1" ⟨"GET", "https://a.test/y"⟩ "t1" =
      ((Handler.addRequest ⟨[], []⟩ "1" ⟨"GET", "https://a.test/x"⟩ "t0").1,
       some ("har: duplicate request id: " ++ "1")) ∧
    (∀ s : StoreSt, (s.entriesIdx.lookup "1").isSome = true →
      Handler.addRequest s "1" ⟨"GET", "https://a.test/y"⟩ "t1" =
        (s, some ("har: duplicate request id: " ++ "1"))) :=
  C6_duplicate_id ⟨[], []⟩ "1" ⟨"GET", "https://a.test/x"⟩ ⟨"GET", "https://a.test/y"⟩
    "t0" "t1" (by decide) (by decide)

/-! ## Claim C5: `Handler.Export` (src/unnamed/part_004 lines 153-160)

Go pointers are modelled as heap addresses.  `Handler.har` is a `*Har`; a
`Har` struct holds a `*Log`; the `Log` holds the version and the entry
pointers.  `Export` dereferences `h.har` (`har := *h.har`) and returns the
address-free struct copy — which still holds the same `*Log`. -/

structure LogV where
  version : String
  creatorName : String
  entryAddrs : List Nat
deriving Repr, DecidableEq

/-- A `Har` struct value: just the `*Log` it holds. -/
structure HarV where
  logAddr : Nat
deriving Repr, DecidableEq

/-- Heap of `Log` objects, address to value. -/
def LogHeap := Nat → LogV

/-- Heap of `Har` objects. -/
def HarHeap := Nat → HarV

/-- The handler field `har *Har`. -/
structure HandlerPtr where
  harAddr : Nat
deriving Repr, DecidableEq

/-- Go `Handler.Export`: `har := *h.har; return &har` — copies the one-level
`Har` struct (the returned fresh pointer is elided; the struct value is
returned directly).  The copy still contains the original `logAddr`. -/
def Handler.export (hh : HarHeap) (h : HandlerPtr) : HarV :=
  hh h.harAddr

/-- The archive the handler itself observes: follow `h.har` and its `Log`
pointer through the heaps. -/
def handlerLog (hh : HarHeap) (lh : LogHeap) (h : HandlerPtr) : LogV :=
  lh (hh h.harAddr).logAddr

/-- Concrete handler state used to exhibit the sharing. -/
def c5Handler : HandlerPtr := ⟨0⟩

def c5HarHeap : HarHeap := fun _ => ⟨0⟩

def c5LogHeap : LogHeap := fun _ => ⟨"1.2", "go-har", [3]⟩

/-- The heap after the caller mutates the `Log` reachable from the value
`Export` returned (for instance `export.Log.Version = "mutated"`). -/
def c5LogHeapMutated : LogHeap :=
  Function.update c5LogHeap (Handler.export c5HarHeap c5Handler).logAddr
    ⟨"mutated", "go-har", [3]⟩

/-- C5: `Export` does not return a structurally independent copy — the
returned value shares the handler's `*Log`, so mutating the log reachable
from the export changes the archive the handler observes. -/
theorem C5_export_shares_log :
    (Handler.export c5HarHeap c5Handler).logAddr =
      (c5HarHeap c5Handler.harAddr).logAddr ∧
    handlerLog c5HarHeap c5LogHeapMutated c5Handler ≠
      handlerLog c5HarHeap c5LogHeap c5Handler ∧
    handlerLog c5HarHeap c5LogHeapMutated c5Handler = ⟨"mutated", "go-har", [3]⟩ := by
  refine ⟨rfl, ?_, ?_⟩
  · intro hEq
    have h1 : handlerLog c5HarHeap c5LogHeapMutated c5Handler =
        ⟨"mutated", "go-har", [3]⟩ := by
      simp [handlerLog, c5LogHeapMutated, Handler.export, c5HarHeap, c5Handler]
    have h2 : handlerLog c5HarHeap c5LogHeap c5Handler = ⟨"1.2", "go-har", [3]⟩ := rfl
    rw [h1, h2] at hEq
    simp at hEq
  · simp [handlerLog, c5LogHeapMutated, Handler.export, c5HarHeap, c5Handler]

/-! ## Entry selection and sequential execution
(src/unnamed/part_004, `Handler.Execute` / `Handler.SyncExecute`)

Both methods collect the matching entries into a Go `map[int]*Entry` under
the lock: for each index, the entry is put in the map once any filter
returns true (the inner `continue` skips only the failing filter, giving OR
semantics; with zero filters nothing is ever inserted).  `selectEntries`
lists the map's contents in key order; iterating a Go map yields them in an
unspecified order, which the execution model takes as an explicit
permutation argument. -/

/-- A replay filter, Go `RequestOption = func(*Handler, *Entry) bool`. -/
abbrev RequestOption := StoreSt → EntryRec → Bool

/-- The contents of the `map[int]*Entry` built by the selection loop, as the
(index, entry) pairs in increasing index order. -/
def selectEntries (h : StoreSt) (filters : List RequestOption)
    (entries : List EntryRec) : List (Nat × EntryRec) :=
  entries.enum.filter fun ie => filters.any fun f => f h ie.2

/-- The per-entry replay result.  `ρ` abstracts the transport outcome
(`*http.Response` plus error); the engine stores it untouched. -/
structure ReceiptR (ρ : Type) where
  index : Nat
  entry : EntryRec
  result : ρ
deriving Repr, DecidableEq

/-- Go `Handler.Execute`: select under the lock; if nothing matched return an
empty receipt slice (and a nil error, not modelled as it is always nil);
otherwise iterate the map — in the unspecified order `order` — running one
entry at a time and appending its receipt.  The handler state is returned
unchanged: the method never writes it. -/
def Handler.execute {ρ : Type} (run : EntryRec → ρ) (h : StoreSt)
    (filters : List RequestOption) (order : List (Nat × EntryRec)) :
    List (ReceiptR ρ) × StoreSt :=
  let sel := selectEntries h filters h.logEntries
  if sel = [] then ([], h)
  else (order.map fun ie => ⟨ie.1, ie.2, run ie.2⟩, h)

/-- Go `Handler.SyncExecute` when the selection is empty: it returns an
already-closed channel carrying no receipts, modelled as the delivered
receipts (none) and the closed flag (true).  A non-empty selection goes to
the concurrent dispatcher, treated separately. -/
def Handler.syncExecuteEmpty (h : StoreSt) (filters : List RequestOption) :
    Option (List (ReceiptR Unit) × Bool) :=
  if selectEntries h filters h.logEntries = [] then some ([], true) else none

theorem pairwise_fst_lt_enumFrom {α : Type} (n : Nat) (l : List α) :
    (l.enumFrom n).Pairwise fun a b => a.1 < b.1 := by
  induction l generalizing n with
  | nil => simp
  | cons x xs ih =>
    simp only [List.enumFrom]
    constructor
    · rintro ⟨i, a⟩ hy
      have hle := (List.mk_mem_enumFrom_iff_le_and_getElem?_sub.mp hy).1
      simpa using Nat.lt_of_lt_of_le (Nat.lt_succ_self n) hle
    · exact ih (n + 1)

/-- The selection preserves archive order: its indices are strictly
increasing. -/
theorem selectEntries_pairwise (h : StoreSt) (filters : List RequestOption)
    (entries : List EntryRec) :
    (selectEntries h filters entries).Pairwise fun a b => a.1 < b.1 :=
  List.Pairwise.filter _ (pairwise_fst_lt_enumFrom 0 entries)

/-- Entries used in the C3 counterexample. -/
def c3e0 : EntryRec := ⟨"", "t", -1, ⟨"GET", "https://a.test/x"⟩⟩

def c3e1 : EntryRec := ⟨"", "t", -1, ⟨"GET", "https://a.test/y"⟩⟩

def c3Store : StoreSt := ⟨[], [c3e0, c3e1]⟩

/-- A filter matching every entry (the `WithRequestHandler` escape hatch with
a constant-true predicate). -/
def c3Filter : RequestOption := fun _ _ => true

/-- C3 counterexample: both entries match, so the selection (map contents) is
`[(0,e0),(1,e1)]`; iterating the Go `map[int]*Entry` may legally visit
`(1,e1)` first, and `Execute` then returns the receipts with indices `[1,0]`
— not in increasing archive order.  This refutes the claimed ordering
guarantee of the sequential mode. -/
theorem C3_counterexample :
    selectEntries c3Store [c3Filter] c3Store.logEntries = [(0, c3e0), (1, c3e1)] ∧
    List.Perm [(1, c3e1), (0, c3e0)]
      (selectEntries c3Store [c3Filter] c3Store.logEntries) ∧
    ((Handler.execute (fun _ => ()) c3Store [c3Filter]
        [(1, c3e1), (0, c3e0)]).1.map fun r => r.index) = [1, 0] ∧
    ((Handler.execute (fun _ => ()) c3Store [c3Filter]
        [(1, c3e1), (0, c3e0)]).1.map fun r => r.index) ≠
      (selectEntries c3Store [c3Filter] c3Store.logEntries).map Prod.fst :=
  ⟨by decide, by decide, by decide, by decide⟩

/-- C3 (amended): `Execute` runs the matched entries one at a time and
returns one receipt per match, each tagged with its original archive index;
the selection itself preserves archive order (strictly increasing indices)
and tags every match with the index at which it sits in the archive.  But
the receipts come out in the unspecified order in which Go iterates the
`map[int]*Entry` of matches — any permutation of the selection — so the
returned collection is NOT guaranteed to be in archive order. -/
theorem C3_execute_unordered {ρ : Type} (run : EntryRec → ρ) (h : StoreSt)
    (filters : List RequestOption) (order : List (Nat × EntryRec))
    (hperm : order.Perm (selectEntries h filters h.logEntries)) :
    (Handler.execute run h filters order).1 =
      order.map (fun ie => ⟨ie.1, ie.2, run ie.2⟩) ∧
    ((Handler.execute run h filters order).1.map fun r => (r.index, r.entry)).Perm
      (selectEntries h filters h.logEntries) ∧
    (Handler.execute run h filters order).2 = h ∧
    (selectEntries h filters h.logEntries).Pairwise (fun a b => a.1 < b.1) ∧
    ∀ ie ∈ selectEntries h filters h.logEntries,
      h.logEntries[ie.1]? = some ie.2 ∧ (filters.any fun f => f h ie.2) = true := by
  have hmem : ∀ ie ∈ selectEntries h filters h.logEntries,
      h.logEntries[ie.1]? = some ie.2 ∧ (filters.any fun f => f h ie.2) = true := by
    intro ie hie
    obtain ⟨hin, hflt⟩ := List.mem_filter.mp hie
    exact ⟨List.mem_enum_iff_getElem?.mp hin, hflt⟩
  by_cases hsel : selectEntries h filters h.logEntries = []
  · have horder : order = [] := List.Perm.eq_nil (hsel ▸ hperm)
    subst horder
    refine ⟨by simp [Handler.execute, hsel], ?_, by simp [Handler.execute, hsel],
      selectEntries_pairwise h filters h.logEntries, hmem⟩
    simp [Handler.execute, hsel]
  · have hexe : (Handler.execute run h filters order) =
        (order.map fun ie => ⟨ie.1, ie.2, run ie.2⟩, h) := by
      simp [Handler.execute, hsel]
    refine ⟨by rw [hexe], ?_, by rw [hexe],
      selectEntries_pairwise h filters h.logEntries, hmem⟩
    rw [hexe]
    have hid : ((order.map fun ie => (⟨ie.1, ie.2, run ie.2⟩ : ReceiptR ρ)).map
        fun r => (r.index, r.entry)) = order := by
      rw [List.map_map]
      show order.map id = order
      exact List.map_id order
    rw [hid]
    exact hperm

/-- C3 witness: the amended statement applied at the concrete two-entry
archive with the reversed iteration order. -/
theorem C3_execute_unordered_witness :
    (Handler.execute (fun _ => ()) c3Store [c3Filter] [(1, c3e1), (0, c3e0)]).1 =
      [(1, c3e1), (0, c3e0)].map (fun ie => ⟨ie.1, ie.2, ()⟩) ∧
    ((Handler.execute (fun _ => ()) c3Store [c3Filter]
        [(1, c3e1), (0, c3e0)]).1.map fun r => (r.index, r.entry)).Perm
      (selectEntries c3Store [c3Filter] c3Store.logEntries) ∧
    (Handler.execute (fun _ => ()) c3Store [c3Filter] [(1, c3e1), (0, c3e0)]).2 =
      c3Store ∧
    (selectEntries c3Store [c3Filter] c3Store.logEntries).Pairwise
      (fun a b => a.1 < b.1) ∧
    ∀ ie ∈ selectEntries c3Store [c3Filter] c3Store.logEntries,
      c3Store.logEntries[ie.1]? = some ie.2 ∧
        (([c3Filter] : List RequestOption).any fun f => f c3Store ie.2) = true :=
  C3_execute_unordered (fun _ => ()) c3Store [c3Filter] [(1, c3e1), (0, c3e0)]
    (by decide)

/-- C10: with an empty filter list the selection loop never inserts anything,
so no entries are selected at all: `Execute` returns an empty receipt
collection with the store unchanged, and `SyncExecute` returns an
already-closed channel yielding no receipts. -/
theorem C10_empty_filters {ρ : Type} (run : EntryRec → ρ) (h : StoreSt)
    (order : List (Nat × EntryRec)) :
    selectEntries h [] h.logEntries = [] ∧
    Handler.execute run h [] order = (([] : List (ReceiptR ρ)), h) ∧
    Handler.syncExecuteEmpty h [] = some ([], true) := by
  have hsel : selectEntries h [] h.logEntries = [] := by simp [selectEntries]
  exact ⟨hsel, by simp [Handler.execute, hsel],
    by simp [Handler.syncExecuteEmpty, hsel]⟩

/-! ## Claim C4: the concurrent dispatcher of `SyncExecute`
(src/unnamed/part_004 lines 293-342)

Small-step model of the dispatcher goroutine, the semaphore
(`golang.org/x/sync/semaphore.Weighted`) and the workers.  One worker is
spawned per loop iteration — crucially, also when `sema.Acquire(ctx, 1)`
returns an error (a cancelled context), since the source only logs that
error.  `Acquire` takes the fast path whenever a unit is free, so it can
fail only when the semaphore is full and the context is done.  Every worker
runs `defer sema.Release(1)`; Go's `Release` panics when more is released
than held.  `close(receipt)` runs after `sema.Acquire(ctx, concurrency)`,
which succeeds when all units are free — or errors at once (only logged)
when the context is done. -/

structure SyncState where
  limit : Nat
  toDispatch : Nat
  held : Nat
  running : Nat
  emitted : Nat
  cancelled : Bool
  closed : Bool
  panicked : Bool
deriving Repr, DecidableEq

/-- Scheduler actions: context cancellation, the two outcomes of the
per-entry `Acquire` + `go` pair, a worker finishing (send + `Release`), and
the final drain + `close`. -/
inductive SyncAct
  | cancel
  | dispatchOk
  | dispatchErr
  | finish
  | closeChan
deriving Repr, DecidableEq

/-- One scheduler step; `none` when the action is not enabled. -/
def syncStep (s : SyncState) : SyncAct → Option SyncState
  | .cancel => if s.cancelled then none else some { s with cancelled := true }
  | .dispatchOk =>
    if 0 < s.toDispatch ∧ s.held < s.limit then
      some { s with toDispatch := s.toDispatch - 1, held := s.held + 1,
                    running := s.running + 1 }
    else none
  | .dispatchErr =>
    if 0 < s.toDispatch ∧ s.held = s.limit ∧ s.cancelled = true then
      some { s with toDispatch := s.toDispatch - 1, running := s.running + 1 }
    else none
  | .finish =>
    if 0 < s.running then
      some { s with running := s.running - 1, emitted := s.emitted + 1,
                    held := s.held - 1, panicked := s.panicked || (s.held == 0) }
    else none
  | .closeChan =>
    if s.toDispatch = 0 ∧ s.closed = false ∧ (s.held = 0 ∨ s.cancelled = true) then
      some { s with closed := true }
    else none

/-- Run a whole schedule. -/
def syncRun (s : SyncState) : List SyncAct → Option SyncState
  | [] => some s
  | a :: rest =>
    match syncStep s a with
    | some s1 => syncRun s1 rest
    | none => none

/-- Initial dispatcher state: `concurrency = h.concurrency.Load()`, replaced
by the number of selected entries when non-positive; the semaphore starts
free, no worker spawned, channel open. -/
def syncInit (concurrencyLoad : Int) (selected : Nat) : SyncState :=
  { limit := if concurrencyLoad ≤ 0 then selected else concurrencyLoad.toNat,
    toDispatch := selected, held := 0, running := 0, emitted := 0,
    cancelled := false, closed := false, panicked := false }

/-- The state reached with limit 1 over 2 entries when the context is
cancelled before dispatch: both workers spawned and running, channel
closed. -/
def c4Bad : SyncState :=
  { limit := 1, toDispatch := 0, held := 1, running := 2, emitted := 0,
    cancelled := true, closed := true, panicked := false }

/-- Invariant of the dispatcher while the context is never cancelled: the
spawned-and-unfinished workers exactly hold the semaphore, never exceed the
limit, nothing panics, and the channel closes only after dispatch is done
with no unit held. -/
def SyncInv (s : SyncState) : Prop :=
  s.running = s.held ∧ s.held ≤ s.limit ∧
    (s.closed = true → s.toDispatch = 0 ∧ s.held = 0) ∧
    s.cancelled = false ∧ s.panicked = false

/-- Sanity of the model away from the bug: every non-cancel step preserves
`SyncInv`, so without cancellation the concurrency bound and the
close-after-drain discipline do hold. -/
theorem syncStep_nocancel_invariant (s s' : SyncState) (a : SyncAct)
    (ha : a ≠ .cancel) (hstep : syncStep s a = some s') (hinv : SyncInv s) :
    SyncInv s' := by
  obtain ⟨hrun, hlim, hcl, hcan, hpan⟩ := hinv
  cases a with
  | cancel => exact absurd rfl ha
  | dispatchOk =>
    simp only [syncStep] at hstep
    split at hstep
    · rename_i hcond
      cases hstep
      have h0 : s.closed = false := by
        cases hcb : s.closed
        · rfl
        · have := (hcl hcb).1
          omega
      refine ⟨?_, ?_, ?_, ?_, ?_⟩
      · show s.running + 1 = s.held + 1
        omega
      · show s.held + 1 ≤ s.limit
        omega
      · intro hc
        exact absurd hc (by simp [h0])
      · exact hcan
      · exact hpan
    · exact Option.noConfusion hstep
  | dispatchErr =>
    simp only [syncStep] at hstep
    split at hstep
    · rename_i hcond
      rw [hcan] at hcond
      exact absurd hcond.2.2 (by simp)
    · exact Option.noConfusion hstep
  | finish =>
    simp only [syncStep] at hstep
    split at hstep
    · rename_i hpos
      cases hstep
      have hheld0 : 0 < s.held := by omega
      refine ⟨?_, ?_, ?_, ?_, ?_⟩
      · show s.running - 1 = s.held - 1
        omega
      · show s.held - 1 ≤ s.limit
        omega
      · intro hc
        have hc0 := hcl hc
        exact ⟨hc0.1, by omega⟩
      · exact hcan
      · show (s.panicked || (s.held == 0)) = false
        rw [hpan, Bool.false_or]
        simp only [beq_eq_false_iff_ne, ne_eq]
        omega
    · exact Option.noConfusion hstep
  | closeChan =>
    simp only [syncStep] at hstep
    split at hstep
    · rename_i hcond
      cases hstep
      have hheld0 : s.held = 0 := by
        rcases hcond.2.2 with h | hfalse
        · exact h
        · rw [hcan] at hfalse
          exact absurd hfalse (by simp)
      refine ⟨hrun, hlim, ?_, hcan, hpan⟩
      intro _
      exact ⟨hcond.1, hheld0⟩
    · exact Option.noConfusion hstep

/-- C4: with a concurrency limit of 1 over 2 selected entries, the schedule
"context cancelled, dispatch both entries, close" is accepted by the
dispatcher: the first `Acquire` still succeeds (fast path), the second fails
but the worker is spawned anyway because the error is only logged, and the
final drain `Acquire` fails too, closing the channel.  The reached state has
2 workers running concurrently (> 1) with the receipt channel already
closed, refuting both halves of the claim. -/
theorem C4_bound_violated :
    syncRun (syncInit 1 2) [.cancel, .dispatchOk, .dispatchErr, .closeChan] =
      some c4Bad ∧
    (syncInit 1 2).limit = 1 ∧ c4Bad.running = 2 ∧ c4Bad.closed = true ∧
    ¬ (∀ (acts : List SyncAct) (s : SyncState),
        syncRun (syncInit 1 2) acts = some s →
          s.running ≤ (syncInit 1 2).limit ∧ (s.closed = true → s.running = 0)) := by
  refine ⟨by decide, rfl, rfl, rfl, ?_⟩
  intro hall
  have hbad := hall [.cancel, .dispatchOk, .dispatchErr, .closeChan] c4Bad (by decide)
  exact absurd hbad.1 (by decide)

/-! ## Time codec (src/unnamed/part_005)

`ParseISO8601` calls `time.ParseInLocation` three times, each layout wrapped
in literal double quotes: `"`+RFC3339+`"`, then `"`+RFC3339Nano+`"`, then
`"`+iso8601ext+`"`.  The model follows Go's generic layout parser on these
layouts: four fixed year digits; two fixed digits for month/day/minute/
second; one or two digits for the hour (`getnum(value, false)`); an optional
fraction introduced by `.` or `,` consuming every following digit and
keeping nine; a zone that is `Z` or `±hh:mm` with unchecked offset range;
then Go's post-parse range validation of month, day (calendar-aware), hour,
minute and second.  A fraction in the input where the layout has none makes
the seconds-precision layout fail, as in Go. -/

inductive GoZone
  | utc
  | offset (neg : Bool) (hh mm : Nat)
  | localZone
deriving Repr, DecidableEq

structure GoTime where
  year : Nat
  month : Nat
  day : Nat
  hour : Nat
  minute : Nat
  second : Nat
  nsec : Nat
  zone : GoZone
deriving Repr, DecidableEq

/-- The digit character for `d ≤ 9`. -/
def digitCh (d : Nat) : Char := Char.ofNat (48 + d)

/-- Numeric value of a digit character. -/
def digVal (c : Char) : Nat := c.toNat - 48

/-- Go `getnum(value, true)`: exactly two digits. -/
def getnum2 : List Char → Option (Nat × List Char)
  | c1 :: c2 :: rest =>
    if c1.isDigit && c2.isDigit then some (digVal c1 * 10 + digVal c2, rest)
    else none
  | _ => none

/-- Go `getnum(value, false)` (used for the `15` hour chunk): one digit, or
two when the second character is also a digit. -/
def getnum1or2 : List Char → Option (Nat × List Char)
  | [] => none
  | c1 :: rest =>
    if c1.isDigit then
      match rest with
      | c2 :: rest2 =>
        if c2.isDigit then some (digVal c1 * 10 + digVal c2, rest2)
        else some (digVal c1, rest)
      | [] => some (digVal c1, [])
    else none

/-- Go `stdLongYear`: exactly four digits. -/
def getnum4 : List Char → Option (Nat × List Char)
  | c1 :: c2 :: c3 :: c4 :: rest =>
    if c1.isDigit && c2.isDigit && c3.isDigit && c4.isDigit then
      some (((digVal c1 * 10 + digVal c2) * 10 + digVal c3) * 10 + digVal c4, rest)
    else none
  | _ => none

/-- Consume a literal layout character. -/
def expectCh (c : Char) : List Char → Option (List Char)
  | x :: rest => if x = c then some rest else none
  | [] => none

/-- Go `stdISO8601ColonTZ` (`Z07:00`): `Z`, or a sign, two digits, `:`, two
digits — with no range check on the offset in the generic path. -/
def parseZoneColon : List Char → Option (GoZone × List Char)
  | [] => none
  | c :: rest =>
    if c = 'Z' then some (.utc, rest)
    else
      match rest with
      | h1 :: h2 :: cl :: m1 :: m2 :: rest2 =>
        if (c = '+' ∨ c = '-') ∧ cl = ':' ∧ h1.isDigit ∧ h2.isDigit ∧
            m1.isDigit ∧ m2.isDigit then
          some (.offset (c == '-') (digVal h1 * 10 + digVal h2)
                  (digVal m1 * 10 + digVal m2), rest2)
        else none
      | _ => none

/-- Longest digit run at the head of the input. -/
def takeDigits : List Char → List Char × List Char
  | [] => ([], [])
  | c :: rest =>
    if c.isDigit then
      let p := takeDigits rest
      (c :: p.1, p.2)
    else ([], c :: rest)

/-- Go `parseNanoseconds`: at most nine digits are used, scaled to
nanoseconds; further digits are consumed but ignored. -/
def fracValue (ds : List Char) : Nat :=
  let used := ds.take 9
  (used.foldl (fun acc c => acc * 10 + digVal c) 0) * 10 ^ (9 - used.length)

/-- Go `stdFracSecond9` (`.999999999`): an optional fraction, present when a
`.` or `,` is followed by a digit; consumes the whole digit run. -/
def parseFrac9 (s : List Char) : Nat × List Char :=
  match s with
  | c :: c2 :: rest =>
    if (c = '.' ∨ c = ',') ∧ c2.isDigit then
      let p := takeDigits (c2 :: rest)
      (fracValue p.1, p.2)
    else (0, s)
  | _ => (0, s)

def isLeap (y : Nat) : Bool := y % 4 = 0 && (y % 100 ≠ 0 || y % 400 = 0)

/-- Go `daysIn`. -/
def daysIn (m y : Nat) : Nat :=
  if m = 2 then (if isLeap y then 29 else 28)
  else if m = 4 ∨ m = 6 ∨ m = 9 ∨ m = 11 then 30
  else 31

/-- The `2006-01-02` chunk sequence of the layouts. -/
def parseYMD (s : List Char) : Option (Nat × Nat × Nat × List Char) :=
  match getnum4 s with
  | none => none
  | some (y, s1) =>
    match expectCh '-' s1 with
    | none => none
    | some s2 =>
      match getnum2 s2 with
      | none => none
      | some (mo, s3) =>
        match expectCh '-' s3 with
        | none => none
        | some s4 =>
          match getnum2 s4 with
          | none => none
          | some (d, s5) => some (y, mo, d, s5)

/-- The `15:04:05` chunk sequence of the layouts. -/
def parseHMS (s : List Char) : Option (Nat × Nat × Nat × List Char) :=
  match getnum1or2 s with
  | none => none
  | some (h, s1) =>
    match expectCh ':' s1 with
    | none => none
    | some s2 =>
      match getnum2 s2 with
      | none => none
      | some (mi, s3) =>
        match expectCh ':' s3 with
        | none => none
        | some s4 =>
          match getnum2 s4 with
          | none => none
          | some (sec, s5) => some (h, mi, sec, s5)

/-- Go `time.ParseInLocation` on one of the three quoted layouts: a leading
quote, the date-time, an optional fraction (when the layout has the
`.999999999` chunk), a zone (when the layout has `Z07:00`, else the time is
taken in `time.Local`), a closing quote, end of input, and the range
validation Go performs. -/
def parseHarLayout (withFrac withZone : Bool) (s0 : List Char) : Option GoTime :=
  match expectCh '"' s0 with
  | none => none
  | some s1 =>
    match parseYMD s1 with
    | none => none
    | some (y, mo, d, s2) =>
      match expectCh 'T' s2 with
      | none => none
      | some s3 =>
        match parseHMS s3 with
        | none => none
        | some (h, mi, sec, s4) =>
          let pf := if withFrac then parseFrac9 s4 else (0, s4)
          match (if withZone then parseZoneColon pf.2
                 else some (GoZone.localZone, pf.2)) with
          | none => none
          | some (z, s5) =>
            match expectCh '"' s5 with
            | none => none
            | some s6 =>
              if s6 = [] ∧ 1 ≤ mo ∧ mo ≤ 12 ∧ 1 ≤ d ∧ d ≤ daysIn mo y ∧
                  h < 24 ∧ mi < 60 ∧ sec < 60 then
                some ⟨y, mo, d, h, mi, sec, pf.1, z⟩
              else none

inductive TimeParseErr
  | empty
  | parseFailed (layout : String) (value : List Char)
deriving Repr, DecidableEq

def rfc3339Layout : String := "2006-01-02T15:04:05Z07:00"

def rfc3339NanoLayout : String := "2006-01-02T15:04:05.999999999Z07:00"

def iso8601ext : String := "2006-01-02T15:04:05.999999999"

/-- First attempt: quoted RFC3339 (seconds precision). -/
def parseL1 (s : List Char) : Except TimeParseErr GoTime :=
  match parseHarLayout false true s with
  | some t => .ok t
  | none => .error (.parseFailed rfc3339Layout s)

/-- Second attempt: quoted RFC3339 with fractional seconds. -/
def parseL2 (s : List Char) : Except TimeParseErr GoTime :=
  match parseHarLayout true true s with
  | some t => .ok t
  | none => .error (.parseFailed rfc3339NanoLayout s)

/-- Third attempt: quoted local fallback without timezone. -/
def parseL3 (s : List Char) : Except TimeParseErr GoTime :=
  match parseHarLayout true false s with
  | some t => .ok t
  | none => .error (.parseFailed iso8601ext s)

/-- Go `ParseISO8601` (src/unnamed/part_005 lines 60-75): empty input is an
error; otherwise the three formats are tried in order and the first success
wins; when all fail the last error is returned (Go's `ParseError` carries
the attempted value, here the original input). -/
def ParseISO8601 (s : List Char) : Except TimeParseErr GoTime :=
  if s = [] then .error .empty
  else
    match parseL1 s with
    | .ok t => .ok t
    | .error _ =>
      match parseL2 s with
      | .ok t => .ok t
      | .error _ => parseL3 s

/-! ### RFC 3339 grammar and parser completeness

`renderRFC3339` and `WellFormedRFC3339` follow the RFC 3339 `date-time`
grammar (uppercase `T`/`Z`, four-digit year, two-digit fields, optional
`.`-fraction, `Z` or `±hh:mm` offset with in-range fields). -/

def pad2 (n : Nat) : List Char := [digitCh (n / 10), digitCh (n % 10)]

def pad4 (n : Nat) : List Char :=
  [digitCh (n / 1000 % 10), digitCh (n / 100 % 10), digitCh (n / 10 % 10),
   digitCh (n % 10)]

theorem digitCh_isDigit {d : Nat} (h : d ≤ 9) : (digitCh d).isDigit = true := by
  interval_cases d <;> decide

theorem digVal_digitCh {d : Nat} (h : d ≤ 9) : digVal (digitCh d) = d := by
  interval_cases d <;> decide

theorem expectCh_cons (c : Char) (r : List Char) : expectCh c (c :: r) = some r := by
  simp [expectCh]

theorem getnum2_pad2 {n : Nat} (h : n ≤ 99) (r : List Char) :
    getnum2 (pad2 n ++ r) = some (n, r) := by
  have h1 : n / 10 ≤ 9 := by omega
  have h2 : n % 10 ≤ 9 := by omega
  simp only [pad2, List.cons_append, List.nil_append, getnum2,
    digitCh_isDigit h1, digitCh_isDigit h2, Bool.and_self, if_true,
    digVal_digitCh h1, digVal_digitCh h2]
  rw [show n / 10 * 10 + n % 10 = n from by omega]

theorem getnum1or2_pad2 {n : Nat} (h : n ≤ 99) (r : List Char) :
    getnum1or2 (pad2 n ++ r) = some (n, r) := by
  have h1 : n / 10 ≤ 9 := by omega
  have h2 : n % 10 ≤ 9 := by omega
  simp only [pad2, List.cons_append, List.nil_append, getnum1or2,
    digitCh_isDigit h1, digitCh_isDigit h2, if_true,
    digVal_digitCh h1, digVal_digitCh h2]
  rw [show n / 10 * 10 + n % 10 = n from by omega]

theorem getnum4_pad4 {n : Nat} (h : n ≤ 9999) (r : List Char) :
    getnum4 (pad4 n ++ r) = some (n, r) := by
  have h1 : n / 1000 % 10 ≤ 9 := by omega
  have h2 : n / 100 % 10 ≤ 9 := by omega
  have h3 : n / 10 % 10 ≤ 9 := by omega
  have h4 : n % 10 ≤ 9 := by omega
  simp only [pad4, List.cons_append, List.nil_append, getnum4,
    digitCh_isDigit h1, digitCh_isDigit h2, digitCh_isDigit h3, digitCh_isDigit h4,
    Bool.and_self, if_true, digVal_digitCh h1, digVal_digitCh h2,
    digVal_digitCh h3, digVal_digitCh h4]
  rw [show ((n / 1000 % 10 * 10 + n / 100 % 10) * 10 + n / 10 % 10) * 10 + n % 10 = n
    from by omega]

theorem parseZoneColon_utc (r : List Char) :
    parseZoneColon ('Z' :: r) = some (.utc, r) := by
  simp [parseZoneColon]

theorem parseZoneColon_offset {sgn : Char} (hsgn : sgn = '+' ∨ sgn = '-')
    {hh mm : Nat} (hh9 : hh ≤ 99) (hm9 : mm ≤ 99) (r : List Char) :
    parseZoneColon (sgn :: (pad2 hh ++ ':' :: (pad2 mm ++ r))) =
      some (.offset (sgn == '-') hh mm, r) := by
  have hne : ¬ sgn = 'Z' := by rcases hsgn with h | h <;> simp [h]
  have h1 : hh / 10 ≤ 9 := by omega
  have h2 : hh % 10 ≤ 9 := by omega
  have h3 : mm / 10 ≤ 9 := by omega
  have h4 : mm % 10 ≤ 9 := by omega
  simp only [pad2, List.cons_append, List.nil_append, parseZoneColon, if_neg hne]
  rw [if_pos ⟨hsgn, trivial, digitCh_isDigit h1, digitCh_isDigit h2,
    digitCh_isDigit h3, digitCh_isDigit h4⟩]
  rw [digVal_digitCh h1, digVal_digitCh h2, digVal_digitCh h3, digVal_digitCh h4]
  rw [show hh / 10 * 10 + hh % 10 = hh from by omega,
    show mm / 10 * 10 + mm % 10 = mm from by omega]

theorem parseZoneColon_head_fail {c : Char} (h1 : c ≠ 'Z') (h2 : c ≠ '+')
    (h3 : c ≠ '-') (r : List Char) : parseZoneColon (c :: r) = none := by
  simp only [parseZoneColon]
  rw [if_neg h1]
  split
  · rw [if_neg]
    rintro ⟨hx, _⟩
    rcases hx with hx | hx
    · exact h2 hx
    · exact h3 hx
  · rfl

theorem takeDigits_append {ds : List Char} (hds : ∀ c ∈ ds, c.isDigit = true)
    {c : Char} (hc : c.isDigit = false) (r : List Char) :
    takeDigits (ds ++ c :: r) = (ds, c :: r) := by
  induction ds with
  | nil => simp [takeDigits, hc]
  | cons d dsx ih =>
    have hd : d.isDigit = true := hds d (by simp)
    simp only [List.cons_append, takeDigits, hd, if_true, List.append_eq,
      ih (fun x hx => hds x (by simp [hx]))]

theorem parseFrac9_frac {ds : List Char} (hne : ds ≠ [])
    (hds : ∀ c ∈ ds, c.isDigit = true) {c : Char} (hc : c.isDigit = false)
    (r : List Char) :
    parseFrac9 ('.' :: (ds ++ c :: r)) = (fracValue ds, c :: r) := by
  cases ds with
  | nil => exact absurd rfl hne
  | cons d0 dtail =>
    have h0 : d0.isDigit = true := hds d0 (by simp)
    simp only [List.cons_append, parseFrac9]
    rw [if_pos ⟨Or.inl trivial, h0⟩]
    have htd := takeDigits_append hds hc r
    simp only [List.cons_append] at htd
    rw [htd]

theorem parseFrac9_noFrac {c : Char} (h1 : c ≠ '.') (h2 : c ≠ ',')
    (r : List Char) : parseFrac9 (c :: r) = (0, c :: r) := by
  cases r with
  | nil => simp [parseFrac9]
  | cons c2 r2 =>
    simp only [parseFrac9]
    rw [if_neg]
    rintro ⟨hx, _⟩
    rcases hx with hx | hx
    · exact h1 hx
    · exact h2 hx

structure RFC3339Parts where
  year : Nat
  month : Nat
  day : Nat
  hour : Nat
  minute : Nat
  second : Nat
  frac : List Char
  zoneUTC : Bool
  zoneNeg : Bool
  offH : Nat
  offM : Nat
deriving Repr, DecidableEq

def zoneRender (p : RFC3339Parts) : List Char :=
  if p.zoneUTC then ['Z']
  else (if p.zoneNeg then '-' else '+') :: (pad2 p.offH ++ ':' :: pad2 p.offM)

def renderRFC3339 (p : RFC3339Parts) : List Char :=
  pad4 p.year ++ '-' :: (pad2 p.month ++ '-' :: (pad2 p.day ++ 'T' ::
    (pad2 p.hour ++ ':' :: (pad2 p.minute ++ ':' :: (pad2 p.second ++
    ((if p.frac = [] then [] else '.' :: p.frac) ++ zoneRender p))))))

def WellFormedRFC3339 (p : RFC3339Parts) : Prop :=
  p.year ≤ 9999 ∧ 1 ≤ p.month ∧ p.month ≤ 12 ∧ 1 ≤ p.day ∧
    p.day ≤ daysIn p.month p.year ∧ p.hour ≤ 23 ∧ p.minute ≤ 59 ∧
    p.second ≤ 59 ∧ (∀ c ∈ p.frac, c.isDigit = true) ∧ p.offH ≤ 23 ∧ p.offM ≤ 59

instance (p : RFC3339Parts) : Decidable (WellFormedRFC3339 p) := by
  unfold WellFormedRFC3339
  infer_instance

/-- The `GoTime` that parsing a rendered well-formed timestamp produces. -/
def partsTime (p : RFC3339Parts) : GoTime :=
  ⟨p.year, p.month, p.day, p.hour, p.minute, p.second, fracValue p.frac,
   if p.zoneUTC then .utc else .offset p.zoneNeg p.offH p.offM⟩

theorem zoneRender_head (p : RFC3339Parts) :
    ∃ c r, zoneRender p ++ ['"'] = c :: r ∧ c.isDigit = false ∧
      c ≠ '.' ∧ c ≠ ',' ∧ (c = 'Z' ∨ c = '+' ∨ c = '-') := by
  unfold zoneRender
  cases p.zoneUTC
  · cases p.zoneNeg
    · exact ⟨'+', pad2 p.offH ++ ':' :: pad2 p.offM ++ ['"'], by simp,
        by decide, by decide, by decide, by decide⟩
    · exact ⟨'-', pad2 p.offH ++ ':' :: pad2 p.offM ++ ['"'], by simp,
        by decide, by decide, by decide, by decide⟩
  · exact ⟨'Z', ['"'], by simp, by decide, by decide, by decide, by decide⟩

theorem parseFrac9_zoneRender (p : RFC3339Parts) :
    parseFrac9 (zoneRender p ++ ['"']) = (0, zoneRender p ++ ['"']) := by
  obtain ⟨c, r, hcr, _, h1, h2, _⟩ := zoneRender_head p
  rw [hcr, parseFrac9_noFrac h1 h2]

theorem parseZoneColon_zoneRender (p : RFC3339Parts)
    (hoffh : p.offH ≤ 99) (hoffm : p.offM ≤ 99) :
    parseZoneColon (zoneRender p ++ ['"']) =
      some ((if p.zoneUTC then GoZone.utc
             else .offset p.zoneNeg p.offH p.offM), ['"']) := by
  unfold zoneRender
  cases hzu : p.zoneUTC
  · cases hzn : p.zoneNeg
    · simp only [Bool.false_eq_true, if_false, List.cons_append, List.append_assoc,
        List.nil_append]
      rw [parseZoneColon_offset (Or.inl rfl) hoffh hoffm]
      rfl
    · simp only [Bool.false_eq_true, if_false, if_true, List.cons_append,
        List.append_assoc, List.nil_append]
      rw [parseZoneColon_offset (Or.inr rfl) hoffh hoffm]
      rfl
  · simp only [if_true, List.cons_append, List.nil_append]
    rw [parseZoneColon_utc]

theorem parseFrac9_fracRender (p : RFC3339Parts)
    (hfracd : ∀ c ∈ p.frac, c.isDigit = true) :
    parseFrac9 ((if p.frac = [] then [] else '.' :: p.frac) ++
        (zoneRender p ++ ['"'])) =
      (fracValue p.frac, zoneRender p ++ ['"']) := by
  by_cases hfe : p.frac = []
  · rw [hfe]
    simp only [if_true, List.nil_append]
    rw [parseFrac9_zoneRender p]
    simp [fracValue]
  · rw [if_neg hfe]
    obtain ⟨c, r, hcr, hcd, _, _, _⟩ := zoneRender_head p
    simp only [List.cons_append]
    rw [hcr]
    exact parseFrac9_frac hfe hfracd hcd r

theorem daysIn_le (m y : Nat) : daysIn m y ≤ 31 := by
  unfold daysIn
  split
  · split <;> omega
  · split <;> omega

theorem parseYMD_render {y mo d : Nat} (hy : y ≤ 9999) (hmo : mo ≤ 99)
    (hd : d ≤ 99) (r : List Char) :
    parseYMD (pad4 y ++ '-' :: (pad2 mo ++ '-' :: (pad2 d ++ r))) =
      some (y, mo, d, r) := by
  simp only [parseYMD, getnum4_pad4 hy, expectCh_cons, getnum2_pad2 hmo,
    getnum2_pad2 hd]

theorem parseHMS_render {h mi sec : Nat} (hh : h ≤ 99) (hmi : mi ≤ 99)
    (hs : sec ≤ 99) (r : List Char) :
    parseHMS (pad2 h ++ ':' :: (pad2 mi ++ ':' :: (pad2 sec ++ r))) =
      some (h, mi, sec, r) := by
  simp only [parseHMS, getnum1or2_pad2 hh, expectCh_cons, getnum2_pad2 hmi,
    getnum2_pad2 hs]

theorem parseL2_render (p : RFC3339Parts) (h : WellFormedRFC3339 p) :
    parseHarLayout true true ('"' :: renderRFC3339 p ++ ['"']) =
      some (partsTime p) := by
  obtain ⟨hy, hmo1, hmo2, hd1, hd2, hh, hmi, hsec, hfracd, hoffh, hoffm⟩ := h
  have hd99 : p.day ≤ 99 := le_trans hd2 (le_trans (daysIn_le _ _) (by norm_num))
  simp only [renderRFC3339, List.cons_append, List.append_assoc, List.nil_append]
  simp only [parseHarLayout, expectCh_cons,
    parseYMD_render hy (show p.month ≤ 99 by omega) hd99,
    parseHMS_render (show p.hour ≤ 99 by omega) (show p.minute ≤ 99 by omega)
      (show p.second ≤ 99 by omega),
    if_true, parseFrac9_fracRender p hfracd,
    parseZoneColon_zoneRender p (by omega) (by omega)]
  split
  · rfl
  · rename_i hcond
    exact absurd ⟨trivial, hmo1, hmo2, hd1, hd2, by omega, by omega, by omega⟩ hcond

theorem parseL1_render_nofrac (p : RFC3339Parts) (h : WellFormedRFC3339 p)
    (hfe : p.frac = []) :
    parseHarLayout false true ('"' :: renderRFC3339 p ++ ['"']) =
      some (partsTime p) := by
  obtain ⟨hy, hmo1, hmo2, hd1, hd2, hh, hmi, hsec, hfracd, hoffh, hoffm⟩ := h
  have hd99 : p.day ≤ 99 := le_trans hd2 (le_trans (daysIn_le _ _) (by norm_num))
  simp only [renderRFC3339, hfe, eq_self_iff_true, if_true, List.nil_append,
    List.cons_append, List.append_assoc]
  simp only [parseHarLayout, expectCh_cons,
    parseYMD_render hy (show p.month ≤ 99 by omega) hd99,
    parseHMS_render (show p.hour ≤ 99 by omega) (show p.minute ≤ 99 by omega)
      (show p.second ≤ 99 by omega),
    if_true, Bool.false_eq_true, if_false,
    parseZoneColon_zoneRender p (by omega) (by omega)]
  split
  · rename_i hcond
    simp only [partsTime, hfe]
    rw [show fracValue [] = 0 from by simp [fracValue]]
  · rename_i hcond
    exact absurd ⟨trivial, hmo1, hmo2, hd1, hd2, by omega, by omega, by omega⟩ hcond

theorem parseL1_render_frac (p : RFC3339Parts) (h : WellFormedRFC3339 p)
    (hfe : p.frac ≠ []) :
    parseHarLayout false true ('"' :: renderRFC3339 p ++ ['"']) = none := by
  obtain ⟨hy, hmo1, hmo2, hd1, hd2, hh, hmi, hsec, hfracd, hoffh, hoffm⟩ := h
  have hd99 : p.day ≤ 99 := le_trans hd2 (le_trans (daysIn_le _ _) (by norm_num))
  simp only [renderRFC3339, if_neg hfe, List.cons_append, List.append_assoc]
  simp only [parseHarLayout, expectCh_cons,
    parseYMD_render hy (show p.month ≤ 99 by omega) hd99,
    parseHMS_render (show p.hour ≤ 99 by omega) (show p.minute ≤ 99 by omega)
      (show p.second ≤ 99 by omega),
    Bool.false_eq_true, if_false, if_true]
  rw [parseZoneColon_head_fail (by decide) (by decide) (by decide)]

/-! ## Claim C8: timestamp parsing -/

/-- C8 counterexample: a well-formed bare RFC3339 string — without the JSON
quotes the three layouts all carry — fails every format, so `ParseISO8601`
returns an error instead of parsing it. -/
theorem C8_counterexample :
    ParseISO8601 "2024-01-02T15:04:05Z".data =
      .error (.parseFailed iso8601ext "2024-01-02T15:04:05Z".data) := by
  decide

/-- C8 (amended): parsing tries the three quoted formats in fixed precedence
order — RFC3339 at seconds precision, then RFC3339 with fractional seconds,
then the local fallback without timezone — returning the first success; the
empty string always errors; when all three fail the error of the last
format is returned, carrying the original text; and every well-formed
RFC3339 timestamp parses successfully once wrapped in the double quotes the
layouts expect (raw JSON string bytes). -/
theorem C8_parse_precedence :
    ParseISO8601 [] = .error .empty ∧
    (∀ s t, parseL1 s = .ok t → ParseISO8601 s = .ok t) ∧
    (∀ s t e1, parseL1 s = .error e1 → parseL2 s = .ok t →
      ParseISO8601 s = .ok t) ∧
    (∀ s e1 e2, s ≠ [] → parseL1 s = .error e1 → parseL2 s = .error e2 →
      ParseISO8601 s = parseL3 s) ∧
    (∀ s, parseHarLayout true false s = none →
      parseL3 s = .error (.parseFailed iso8601ext s)) ∧
    (∀ p : RFC3339Parts, WellFormedRFC3339 p →
      ParseISO8601 ('"' :: renderRFC3339 p ++ ['"']) = .ok (partsTime p)) := by
  have hL1nil : parseL1 [] = .error (.parseFailed rfc3339Layout []) := by decide
  have hL2nil : parseL2 [] = .error (.parseFailed rfc3339NanoLayout []) := by decide
  refine ⟨by decide, ?_, ?_, ?_, ?_, ?_⟩
  · intro s t h1
    by_cases hs : s = []
    · subst hs
      rw [hL1nil] at h1
      exact Except.noConfusion h1
    · unfold ParseISO8601
      rw [if_neg hs]
      simp only [h1]
  · intro s t e1 h1 h2
    by_cases hs : s = []
    · subst hs
      rw [hL2nil] at h2
      exact Except.noConfusion h2
    · unfold ParseISO8601
      rw [if_neg hs]
      simp only [h1, h2]
  · intro s e1 e2 hs h1 h2
    unfold ParseISO8601
    rw [if_neg hs]
    simp only [h1, h2]
  · intro s h3
    unfold parseL3
    rw [h3]
  · intro p hp
    have hne : ('"' :: renderRFC3339 p ++ ['"'] : List Char) ≠ [] := by simp
    unfold ParseISO8601
    rw [if_neg hne]
    by_cases hfe : p.frac = []
    · have h1 : parseL1 ('"' :: renderRFC3339 p ++ ['"']) = .ok (partsTime p) := by
        unfold parseL1
        rw [parseL1_render_nofrac p hp hfe]
      simp only [h1]
    · have h1 : parseL1 ('"' :: renderRFC3339 p ++ ['"']) =
          .error (.parseFailed rfc3339Layout ('"' :: renderRFC3339 p ++ ['"'])) := by
        unfold parseL1
        rw [parseL1_render_frac p hp hfe]
      have h2 : parseL2 ('"' :: renderRFC3339 p ++ ['"']) = .ok (partsTime p) := by
        unfold parseL2
        rw [parseL2_render p hp]
      simp only [h1, h2]

/-- A concrete well-formed timestamp for the C8 witness. -/
def c8Parts : RFC3339Parts :=
  ⟨2024, 1, 2, 15, 4, 5, [], true, false, 0, 0⟩

/-- A concrete fractional timestamp for the C8 witness. -/
def c8PartsFrac : RFC3339Parts :=
  ⟨2024, 1, 2, 15, 4, 5, ['5'], true, false, 0, 0⟩

/-- C8 witness: the amended statement applied at concrete inputs — a quoted
seconds-precision timestamp (first format wins), a quoted fractional one
(second format wins after the first fails), a bare timestamp (all three
fail and the last error carries the text), and the completeness conjunct at
a concrete well-formed timestamp. -/
theorem C8_parse_precedence_witness :
    ParseISO8601 "\"2024-01-02T15:04:05Z\"".data =
      .ok ⟨2024, 1, 2, 15, 4, 5, 0, .utc⟩ ∧
    ParseISO8601 "\"2024-01-02T15:04:05.5Z\"".data =
      .ok ⟨2024, 1, 2, 15, 4, 5, 500000000, .utc⟩ ∧
    ParseISO8601 "2024-01-02T15:04:05Z".data =
      parseL3 "2024-01-02T15:04:05Z".data ∧
    parseL3 "2024-01-02T15:04:05Z".data =
      .error (.parseFailed iso8601ext "2024-01-02T15:04:05Z".data) ∧
    ParseISO8601 ('"' :: renderRFC3339 c8Parts ++ ['"']) =
      .ok (partsTime c8Parts) := by
  obtain ⟨-, hb, hc, hd, he, hf⟩ := C8_parse_precedence
  refine ⟨?_, ?_, ?_, ?_, hf c8Parts (by decide)⟩
  · exact hb _ _ (by decide)
  · exact hc "\"2024-01-02T15:04:05.5Z\"".data ⟨2024, 1, 2, 15, 4, 5, 500000000, .utc⟩
      (.parseFailed rfc3339Layout "\"2024-01-02T15:04:05.5Z\"".data)
      (by decide) (by decide)
  · exact hd "2024-01-02T15:04:05Z".data
      (.parseFailed rfc3339Layout "2024-01-02T15:04:05Z".data)
      (.parseFailed rfc3339NanoLayout "2024-01-02T15:04:05Z".data)
      (by decide) (by decide) (by decide)
  · exact he _ (by decide)

/-! ## Claim C9: timestamp serialization (src/unnamed/part_005 lines 35-41) -/

/-- Zone suffix of Go's `Z07:00` format chunk.  A `localZone` time formats
with the environment's offset, which the model leaves out; no claim
evaluates it. -/
def zoneSuffix : GoZone → List Char
  | .utc => ['Z']
  | .offset neg hh mm => (if neg then '-' else '+') :: (pad2 hh ++ ':' :: pad2 mm)
  | .localZone => []

/-- Go `Format(time.RFC3339)`: seconds precision, no fraction. -/
def formatRFC3339 (t : GoTime) : List Char :=
  pad4 t.year ++ '-' :: (pad2 t.month ++ '-' :: (pad2 t.day ++ 'T' ::
    (pad2 t.hour ++ ':' :: (pad2 t.minute ++ ':' :: (pad2 t.second ++
      zoneSuffix t.zone)))))

/-- The `.999999999` fraction: omitted when zero, else nine digits with
trailing zeros stripped. -/
def nanoFracSuffix (ns : Nat) : List Char :=
  if ns = 0 then []
  else
    let ds := [digitCh (ns / 100000000 % 10), digitCh (ns / 10000000 % 10),
               digitCh (ns / 1000000 % 10), digitCh (ns / 100000 % 10),
               digitCh (ns / 10000 % 10), digitCh (ns / 1000 % 10),
               digitCh (ns / 100 % 10), digitCh (ns / 10 % 10), digitCh (ns % 10)]
    '.' :: (ds.reverse.dropWhile (fun c => c = '0')).reverse

/-- Go `Format(time.RFC3339Nano)`: nanosecond precision, trailing zeros
trimmed. -/
def formatRFC3339Nano (t : GoTime) : List Char :=
  pad4 t.year ++ '-' :: (pad2 t.month ++ '-' :: (pad2 t.day ++ 'T' ::
    (pad2 t.hour ++ ':' :: (pad2 t.minute ++ ':' :: (pad2 t.second ++
      (nanoFracSuffix t.nsec ++ zoneSuffix t.zone))))))

/-- Go `Time.MarshalJSON` (src/unnamed/part_005 line 35-37): the source
returns the bytes of the LAYOUT string wrapped in quotes —
`[]byte(quote + time.RFC3339 + quote)` — never formatting the receiver. -/
def Time.marshalJSON (_t : GoTime) : List Char :=
  '"' :: rfc3339Layout.data ++ ['"']

/-- Go `Time.MarshalText` (src/unnamed/part_005 lines 39-41): formats the
receiver with `time.RFC3339` — seconds precision, dropping nanoseconds. -/
def Time.marshalText (t : GoTime) : List Char :=
  formatRFC3339 t

/-- The timestamp exhibiting the C9 divergence. -/
def c9Time : GoTime := ⟨2024, 1, 2, 3, 4, 5, 123456789, .utc⟩

/-- C9: `Time.MarshalJSON` emits the constant layout string
`"2006-01-02T15:04:05Z07:00"` for every timestamp (the receiver is never
formatted), and `Time.MarshalText` formats at seconds precision, dropping
the fractional part — neither emits the claimed RFC3339 rendering with
nanosecond precision. -/
theorem C9_time_marshal_layout_constant :
    (∀ t : GoTime, Time.marshalJSON t = '"' :: rfc3339Layout.data ++ ['"']) ∧
    Time.marshalJSON c9Time ≠ '"' :: (formatRFC3339Nano c9Time ++ ['"']) ∧
    formatRFC3339Nano c9Time = "2024-01-02T03:04:05.123456789Z".data ∧
    Time.marshalText c9Time = "2024-01-02T03:04:05Z".data ∧
    Time.marshalText c9Time ≠ formatRFC3339Nano c9Time :=
  ⟨fun _ => rfl, by decide, by decide, by decide, by decide⟩
